import Mathlib

/-!
# Verification of the token security checker's decoders and classifier

Shallow embedding of `src/scripts/security_check.py` (the account byte-layout
decoders and the risk classifier) of the TheCoinWifsperer repository.

Conventions of the embedding:

* A byte buffer (`bytes`) is a `List Nat`; Python slicing `data[a:b]`
  (which clamps at the end of the buffer) is `pySlice data a (b-a)`.
* `struct.unpack` demands a pySlice of exactly the right size and raises
  `struct.error` otherwise; this is `readExact?` / `readLE?`, which return
  `none` exactly when the requested range does not fit in the buffer.
* Numbers are read little-endian (`"<I"`, `"<Q"`, `"<H"`, `"<B"`), hence
  `leNat` folds the byte list with the first byte least significant.
* `solders.Pubkey(b)` raises unless `b` has exactly 32 bytes; its base58
  string rendering is injective, so addresses are kept as raw 32-byte
  lists and `pkStr` is an (injective) textual rendering standing in for
  `str(Pubkey(...))`.
* Python `dict`s are association lists in insertion order; a value `None`
  is `Option.none` in the `Cell` of the list.
* Raised-and-caught exceptions are modelled by `Option`: a `none` result
  of a sub-parse is exactly the branch where the Python code catches
  `struct.error` / `ValueError` and degrades the result.
-/

/-- A byte buffer.  Bytes of a real buffer lie below 256; none of the
properties proved here needs that bound, so it is not carried around. -/
abbrev Bytes := List Nat

/-- Python slicing `data[off : off + n]`: clamps at the end of the buffer,
never raises. -/
def pySlice (data : Bytes) (off n : Nat) : Bytes :=
  (data.drop off).take n

/-- `struct.unpack` on `data[off : off + n]`: succeeds only when the full
`n` bytes are available, mirroring that `struct.unpack` raises
`struct.error` on a short pySlice. -/
def readExact? (data : Bytes) (off n : Nat) : Option Bytes :=
  if off + n ≤ data.length then some (pySlice data off n) else none

/-- Little-endian value of a byte list (first byte least significant). -/
def leNat (bs : Bytes) : Nat :=
  bs.foldr (fun b acc => b + 256 * acc) 0

/-- Read an `n`-byte little-endian unsigned integer at `off`
(`struct.unpack("<I"/"<Q"/"<H"/"<B", data[off:off+n])`). -/
def readLE? (data : Bytes) (off n : Nat) : Option Nat :=
  (readExact? data off n).map leNat

/-- The tri-state `metadata_mutable` value used by the script: the strings
`"unknown"`, `"0"`, `"1"` (a freshly parsed Token-2022 record holds `None`,
which `parse_token_2022_mint` coerces to `"unknown"` before returning, so
`unknown` stands for both). -/
inductive Mut where
  | unknown : Mut
  | no : Mut
  | yes : Mut
deriving DecidableEq, Repr

/-- String value the `Mut` tri-state takes inside the Python `dict`. -/
def Mut.str : Mut → String
  | .unknown => "unknown"
  | .no => "0"
  | .yes => "1"

/-- The `mint_info` dictionary built by `parse_token_2022_mint` and by the
legacy branch of `fetch_mint_info`.  `metadata_account = none` models the
key being absent from the dict; `is_spl2022 = false` likewise. -/
structure MintInfo where
  mint_authority : Option Bytes
  freeze_authority : Option Bytes
  supply : Nat
  decimals : Nat
  is_initialized : Bool
  metadata_mutable : Mut
  metadata_account : Option Bytes
  is_spl2022 : Bool
deriving DecidableEq, Repr

/-- Result of the TLV extension loop of `parse_token_2022_mint`.
`structErr` marks the `except struct.error` branch inside the loop body and
`fuelOut` marks exhaustion of the fuel of the embedding; both are proved
unreachable. -/
structure LoopOut where
  info : MintInfo
  parse_fail : Bool
  foundExt : Bool
  structErr : Bool
  fuelOut : Bool
deriving DecidableEq, Repr

/-- Effect of one in-bounds extension block on `mint_info`
(`parse_token_2022_mint`, lines 150-160): a type-13 block with non-empty
payload sets `metadata_mutable` from its first byte, a type-12 block with a
payload of at least 32 bytes sets `metadata_account` to its first 32
bytes, every other block is skipped. -/
def applyExt (info : MintInfo) (extType : Nat) (extData : Bytes) : MintInfo :=
  if extType = 13 then
    match extData with
    | b :: _ => { info with metadata_mutable := if b = 1 then Mut.yes else Mut.no }
    | [] => info
  else if extType = 12 then
    if 32 ≤ extData.length then
      { info with metadata_account := some (extData.take 32) }
    else info
  else info

/-- The TLV loop of `parse_token_2022_mint` (lines 139-163):
`while offset + 4 <= len(data)`: read a 2-byte tag and a 2-byte length,
advance past the 4-byte header, abort with `parse_fail = true` when the
declared length overruns the buffer, otherwise pySlice the payload, apply it
and continue.  Structural recursion on `fuel`; the caller passes
`data.length`, which is proved sufficient (`fuelOut` never set). -/
def tlvLoop (fuel : Nat) (data : Bytes) (offset : Nat) (info : MintInfo) (foundExt : Bool) : LoopOut :=
  if offset + 4 ≤ data.length then
    match fuel with
    | 0 => ⟨info, false, foundExt, false, true⟩
    | fuel' + 1 =>
      match readLE? data offset 2, readLE? data (offset + 2) 2 with
      | some extType, some extLen =>
        if data.length < offset + 4 + extLen then
          ⟨info, true, foundExt, false, false⟩
        else
          tlvLoop fuel' data (offset + 4 + extLen)
            (applyExt info extType (pySlice data (offset + 4) extLen)) true
      | _, _ => ⟨info, true, foundExt, true, false⟩
  else ⟨info, false, foundExt, false, false⟩

/-- Fixed-header part of `parse_token_2022_mint` (lines 112-128): a 4-byte
mint-authority option, a 32-byte authority read (and skipped) only when
that option equals 1, an 8-byte supply, 1-byte decimals, 1-byte
initialized flag, a 4-byte freeze-authority option and, only when it
equals 1, a 32-byte freeze authority.  A `none` result is the path where
`struct.error` / the `Pubkey` constructor raises and the outer handler of
the Python function returns `({}, True)`. -/
def parseHeader (data : Bytes) : Option (MintInfo × Nat) :=
  match readLE? data 0 4 with
  | none => none
  | some mao =>
    match (if mao = 1 then (readExact? data 4 32).map (fun pk => (some pk, 36))
           else some (none, 4) : Option (Option Bytes × Nat)) with
    | none => none
    | some (ma, o1) =>
      match readLE? data o1 8 with
      | none => none
      | some supply =>
        match readLE? data (o1 + 8) 1 with
        | none => none
        | some decimals =>
          match readLE? data (o1 + 9) 1 with
          | none => none
          | some isInit =>
            match readLE? data (o1 + 10) 4 with
            | none => none
            | some fao =>
              match (if fao = 1 then (readExact? data (o1 + 14) 32).map (fun pk => (some pk, o1 + 46))
                     else some (none, o1 + 14) : Option (Option Bytes × Nat)) with
              | none => none
              | some (fa, o2) =>
                some ({ mint_authority := ma, freeze_authority := fa,
                        supply := supply, decimals := decimals,
                        is_initialized := isInit ≠ 0,
                        metadata_mutable := Mut.unknown,
                        metadata_account := none, is_spl2022 := false }, o2)

/-- `parse_token_2022_mint(data)` (lines 108-168).  The first component is
the `mint_info` dict (`none` = the empty dict `{}`), the second the
returned failure flag `parse_fail or not found_extension`.  A buffer
shorter than 14 bytes yields `({}, False)`; a header that raises yields
`({}, True)` via the outer exception handler. -/
def parse_token_2022_mint (data : Bytes) : Option MintInfo × Bool :=
  if data.length < 14 then (none, false)
  else
    match parseHeader data with
    | none => (none, true)
    | some (info, off) =>
      let r := tlvLoop data.length data off info false
      (some r.info, r.parse_fail || !r.foundExt)

/-- `get_metadata_is_mutable(data)` (lines 73-106): skip the fixed 65-byte
prefix, then three 4-byte-length-prefixed strings (name, symbol, uri), a
2-byte fee, a 1-byte creators flag with an optional 4-byte count of
34-byte creator entries, a 1-byte primary-sale flag, then read the
mutability byte.  Every bounds failure — an explicit `offset > len(data)`
check or a `struct.error` on a short pySlice — returns `none`. -/
def get_metadata_is_mutable (data : Bytes) : Option Bool :=
  if data.length < 67 then none
  else
    match readLE? data 65 4 with
    | none => none
    | some name_len =>
      let o1 := 65 + (4 + name_len)
      if data.length < o1 then none
      else
        match readLE? data o1 4 with
        | none => none
        | some symbol_len =>
          let o2 := o1 + (4 + symbol_len)
          if data.length < o2 then none
          else
            match readLE? data o2 4 with
            | none => none
            | some uri_len =>
              let o3 := o2 + (4 + uri_len)
              if data.length < o3 then none
              else
                let o4 := o3 + 2
                if data.length < o4 then none
                else
                  match readLE? data o4 1 with
                  | none => none
                  | some has_creators =>
                    let o5 := o4 + 1
                    let afterCreators : Option Nat :=
                      if has_creators = 1 then
                        match readLE? data o5 4 with
                        | none => none
                        | some num_creators =>
                          let o6 := o5 + (4 + num_creators * 34)
                          if data.length < o6 then none else some o6
                      else some o5
                    match afterCreators with
                    | none => none
                    | some o6 =>
                      let o7 := o6 + 1
                      if data.length ≤ o7 then none
                      else
                        match readLE? data o7 1 with
                        | none => none
                        | some m => some (m ≠ 0)

/-- The parsed fields of the fixed 82-byte legacy mint record.  Models
`spl.token._layouts.MINT_LAYOUT.parse`: a C-struct of a 4-byte
little-endian `mint_authority_option`, an unconditional 32-byte
`mint_authority`, an 8-byte `supply`, 1-byte `decimals`, 1-byte
`is_initialized`, a 4-byte `freeze_authority_option` and an unconditional
32-byte `freeze_authority` — 82 bytes with fixed offsets (the caller
checks the length first). -/
structure LegacyMint where
  mint_authority_option : Nat
  mint_authority : Bytes
  supply : Nat
  decimals : Nat
  is_initialized : Nat
  freeze_authority_option : Nat
  freeze_authority : Bytes
deriving DecidableEq, Repr

/-- `MINT_LAYOUT.parse(data)` on an 82-byte buffer: purely fixed offsets. -/
def mintLayoutParse (data : Bytes) : LegacyMint :=
  { mint_authority_option := leNat (pySlice data 0 4)
  , mint_authority := pySlice data 4 32
  , supply := leNat (pySlice data 36 8)
  , decimals := leNat (pySlice data 44 1)
  , is_initialized := leNat (pySlice data 45 1)
  , freeze_authority_option := leNat (pySlice data 46 4)
  , freeze_authority := pySlice data 50 32 }

/-- The owning program of a fetched account, as compared against the two
known program ids in `fetch_mint_info`. -/
inductive Owner where
  | spl : Owner
  | token2022 : Owner
  | other : Owner
deriving DecidableEq, Repr

/-- A fetched account: its owner id and its raw data.  `data = none`
models `value.data` not being a `bytes` object. -/
structure RawAccount where
  owner : Owner
  data : Option Bytes
deriving DecidableEq, Repr

/-- A cell value as stored in the Python dict / DataFrame: `none` is
Python `None` (or pandas `NaN`). -/
abbrev Cell := Option String

/-- A Python dict in insertion order, as consumed by `update_from_rpc`. -/
abbrev Dict := List (String × Cell)

/-- Stands in for `str(Pubkey(bs))`.  The real rendering is base58; all
that matters to the checker is that it is an injective, non-empty string
per 32-byte address, so the list rendering is used. -/
def pkStr (bs : Bytes) : String := toString bs

/-- Serialize a `MintInfo` to the dict built by the script, keys in the
script's insertion order; `metadata_account` and `is_spl2022` are present
only when set (the legacy branch never inserts them). -/
def dictOf (i : MintInfo) : Dict :=
  [("mint_authority", i.mint_authority.map pkStr),
   ("freeze_authority", i.freeze_authority.map pkStr),
   ("supply", some (toString i.supply)),
   ("decimals", some (toString i.decimals)),
   ("is_initialized", some (if i.is_initialized then "True" else "False")),
   ("metadata_mutable", some i.metadata_mutable.str)]
  ++ (match i.metadata_account with
      | some a => [("metadata_account", some (pkStr a))]
      | none => [])
  ++ (if i.is_spl2022 then [("is_spl2022", some "1")] else [])

/-- `fetch_mint_info` (lines 170-214) as a pure function of the fetched
account.  `acct` is the result of `client.get_account_info(pubkey)`
(`none` = no account); `metaDerived` is the data of the account at the
program-derived metadata address used on the legacy path (`none` = absent
or not `bytes`); `metaPtr mp` is the data of the account at the pointer
address `mp` found by the extension chain.  The network fetches and the
sha256-based address derivation themselves are external I/O and are
parameters here.  Result: the `mint_info` dict (`[]` = `{}`) and the
`parse_fail` flag. -/
def fetch_mint_info (acct : Option RawAccount) (metaDerived : Option Bytes)
    (metaPtr : Bytes → Option Bytes) : Dict × Bool :=
  match acct with
  | none => ([], false)
  | some a =>
    match a.data with
    | none => ([], false)
    | some data =>
      match a.owner with
      | .spl =>
        if data.length ≠ 82 then ([], false)
        else
          let m := mintLayoutParse data
          let info : MintInfo :=
            { mint_authority := if m.mint_authority_option ≠ 0 then some m.mint_authority else none
            , freeze_authority := if m.freeze_authority_option ≠ 0 then some m.freeze_authority else none
            , supply := m.supply
            , decimals := m.decimals
            , is_initialized := m.is_initialized ≠ 0
            , metadata_mutable := Mut.no
            , metadata_account := none
            , is_spl2022 := false }
          let info :=
            match metaDerived with
            | some md =>
              match get_metadata_is_mutable md with
              | some b => { info with metadata_mutable := if b then Mut.yes else Mut.no }
              | none => info
            | none => info
          (dictOf info, false)
      | .token2022 =>
        match parse_token_2022_mint data with
        | (none, pf) => ([], pf)
        | (some info, pf) =>
          let info := { info with is_spl2022 := true }
          let info :=
            match info.metadata_account with
            | some mp =>
              match metaPtr mp with
              | some md =>
                match get_metadata_is_mutable md with
                | some b => { info with metadata_mutable := if b then Mut.yes else Mut.no }
                | none => info
              | none => info
            | none => info
          (dictOf info, pf)
      | .other => ([], true)

/-- Python truthiness of `info.get(key)`: key absent or value `None` or
the empty string are falsy. -/
def pyTruthy (v : Option Cell) : Bool :=
  match v with
  | some (some s) => s ≠ ""
  | _ => false

/-- `str(info.get("metadata_mutable", "unknown"))`: the default when the
key is absent, `str(None) = "None"` when the value is `None`. -/
def pyStr (v : Option Cell) : String :=
  match v with
  | none => "unknown"
  | some none => "None"
  | some (some s) => s

/-- The three-valued verdict of the classifier. -/
inductive Verdict where
  | safe : Verdict
  | danger : Verdict
  | unknown : Verdict
deriving DecidableEq, Repr

/-- The classification logic of `update_from_rpc` (lines 228-263) as a
pure function of the `info` dict and the `parse_fail` flag: an empty dict
is `Unknown`; otherwise reasons accumulate in evaluation order — a truthy
`mint_authority` adds `"mintable"`, a truthy `freeze_authority` adds
`"freezeable"`, `metadata_mutable` of `"1"` adds `"metadata mutable"`,
anything other than `"0"`/`"1"` adds `"parse_fail or unknown mutability"`,
and `parse_fail` adds `"parse_fail"` unless already present; the verdict
is `danger` iff the danger flag was set. -/
def classify (info : Dict) (parse_fail : Bool) : Verdict × List String :=
  if info.isEmpty then (Verdict.unknown, [])
  else
    let p1 : Bool × List String :=
      if pyTruthy (info.lookup "mint_authority") then (true, ["mintable"]) else (false, [])
    let p2 : Bool × List String :=
      if pyTruthy (info.lookup "freeze_authority") then (true, ["freezeable"]) else (false, [])
    let mm := pyStr (info.lookup "metadata_mutable")
    let p3 : Bool × List String :=
      if mm = "1" then (true, ["metadata mutable"])
      else if mm = "0" then (false, [])
      else (true, ["parse_fail or unknown mutability"])
    let rs := p1.2 ++ p2.2 ++ p3.2
    let danger := p1.1 || p2.1 || p3.1
    let final : Bool × List String :=
      if parse_fail then
        (true, if rs.contains "parse_fail" then rs else rs ++ ["parse_fail"])
      else (danger, rs)
    (if final.1 then Verdict.danger else Verdict.safe, final.2)

/-- End-to-end verdict of one inspection: fetch, then classify. -/
def verdictOf (acct : Option RawAccount) (metaDerived : Option Bytes)
    (metaPtr : Bytes → Option Bytes) : Verdict :=
  (classify (fetch_mint_info acct metaDerived metaPtr).1
            (fetch_mint_info acct metaDerived metaPtr).2).1

/-- A pandas `DataFrame` restricted to what `update_from_rpc` touches: an
ordered list of column names and rows of cells aligned with the columns
(`none` = `NaN`).  Real frames are rectangular; theorems carry that as the
`WfDf` hypothesis. -/
structure Df where
  cols : List String
  rows : List (List Cell)
deriving DecidableEq, Repr

/-- Index of a column name (position of its first occurrence). -/
def colIdx (cols : List String) (c : String) : Option Nat :=
  match cols with
  | [] => none
  | c' :: rest => if c' = c then some 0 else (colIdx rest c).map (· + 1)

/-- Value of column `c` in row `r` (`none` when the column is absent or
the row is ragged, which a rectangular frame never is). -/
def getCellRow (cols : List String) (r : List Cell) (c : String) : Cell :=
  match colIdx cols c with
  | some i => (r[i]?).join
  | none => none

/-- Value of column `c` in the `i`-th row of the frame. -/
def getCell (df : Df) (i : Nat) (c : String) : Cell :=
  match df.rows[i]? with
  | some r => getCellRow df.cols r c
  | none => none

/-- Every row has exactly one cell per column. -/
def WfDf (df : Df) : Prop :=
  ∀ r ∈ df.rows, r.length = df.cols.length

/-- `row_mask = df["mint_address"].str.lower() == address.lower()`
(line 218): one boolean per row; a missing (`NaN`) address never
matches. -/
def maskOf (df : Df) (addr : String) : List Bool :=
  df.rows.map (fun r =>
    match getCellRow df.cols r "mint_address" with
    | some s => s.toLower == addr.toLower
    | none => false)

/-- `if key not in df.columns: df[key] = fill`: appends a column, giving
every row the fill value (`""` for the dict loop of line 223, `NaN` for a
`df.loc` assignment to a fresh column). -/
def ensureCol (df : Df) (c : String) (fill : Cell) : Df :=
  if df.cols.contains c then df
  else ⟨df.cols ++ [c], df.rows.map (fun r => r ++ [fill])⟩

/-- `df.loc[row_mask, c] = v` on a frame that already has column `c`. -/
def setCol (df : Df) (mask : List Bool) (c : String) (v : Cell) : Df :=
  match colIdx df.cols c with
  | some i => ⟨df.cols, List.zipWith (fun m r => if m then r.set i v else r) mask df.rows⟩
  | none => df

/-- A full masked write: make sure the column exists, then assign the
masked rows. -/
def writeCol (df : Df) (mask : List Bool) (c : String) (fill v : Cell) : Df :=
  setCol (ensureCol df c fill) mask c v

/-- `update_from_rpc(df, address, info, parse_fail)` (lines 216-266),
with the wall-clock timestamp `now` passed explicitly.  Returns the
updated frame and the status string (`None` when no row matched). -/
def update_from_rpc (df : Df) (addr : String) (info : Dict) (parse_fail : Bool)
    (now : String) : Df × Option String :=
  let mask := maskOf df addr
  if !mask.any id then (df, none)
  else
    let df1 := info.foldl (fun d kv => writeCol d mask kv.1 (some "") kv.2) df
    let df2 := writeCol df1 mask "last_updated" none (some now)
    let fsVals := (List.zip mask df2.rows).filterMap
      (fun p => if p.1 then some (getCellRow df2.cols p.2 "first_seen_on") else none)
    let df3 :=
      if fsVals.any (fun c => match c with | none => true | some s => s == "") then
        writeCol df2 mask "first_seen_on" none (some now)
      else df2
    if info.isEmpty then
      let df4 := writeCol df3 mask "security_status" none (some "NO_DATA")
      let df5 := writeCol df4 mask "health_summary" none (some "NO_DATA")
      (df5, some "UNKNOWN")
    else
      let df4 := writeCol df3 mask "mint_authority_exist" none
        (some (if pyTruthy (info.lookup "mint_authority") then "1" else "0"))
      let df5 := writeCol df4 mask "freeze_authority_exist" none
        (some (if pyTruthy (info.lookup "freeze_authority") then "1" else "0"))
      let mm := pyStr (info.lookup "metadata_mutable")
      let df6 := writeCol df5 mask "metadata_mutable" none
        (some (if mm = "1" then "1" else if mm = "0" then "0" else "unknown"))
      let df7 := writeCol df6 mask "is_spl2022" none
        (match info.lookup "is_spl2022" with | some v => v | none => some "0")
      let vr := classify info parse_fail
      let df8 := writeCol df7 mask "security_status" none
        (some (if vr.1 = Verdict.danger then "DANGER" else "SAFE"))
      let summary :=
        if vr.1 = Verdict.danger ∧ vr.2 ≠ [] then "Danger—" ++ String.intercalate "," vr.2
        else "Safe"
      let df9 := writeCol df8 mask "health_summary" none (some summary)
      (df9, some (if vr.1 = Verdict.danger then "DANGER, flagged." else "SAFE."))

/-- Header facts of the legacy decode path: `MINT_LAYOUT.parse` followed
by the truthiness interpretation of the two option words done by
`fetch_mint_info` (lines 181-186): `(mint_authority, freeze_authority,
supply, decimals, is_initialized)`. -/
def legacyHeaderFacts (data : Bytes) : Option Bytes × Option Bytes × Nat × Nat × Bool :=
  let m := mintLayoutParse data
  (if m.mint_authority_option ≠ 0 then some m.mint_authority else none,
   if m.freeze_authority_option ≠ 0 then some m.freeze_authority else none,
   m.supply, m.decimals, m.is_initialized ≠ 0)

/-- The same five fixed-header facts as produced by the Extension-Chain
decoder's header parse. -/
def extHeaderFacts (data : Bytes) : Option (Option Bytes × Option Bytes × Nat × Nat × Bool) :=
  (parseHeader data).map
    (fun p => (p.1.mint_authority, p.1.freeze_authority, p.1.supply, p.1.decimals, p.1.is_initialized))

/-- Modelled from the amended wording of the Unknown-verdict claim: the
inputs on which the inspection yields `Unknown` — account absent, data not
bytes, unrecognized owner, a legacy-owner buffer whose length is not 82,
or an extensible-owner buffer whose fixed header cannot be decoded. -/
def yieldsUnknown (acct : Option RawAccount) : Prop :=
  match acct with
  | none => True
  | some a =>
    match a.data with
    | none => True
    | some data =>
      match a.owner with
      | .spl => data.length ≠ 82
      | .token2022 => data.length < 14 ∨ parseHeader data = none
      | .other => True

/-- Frame relation for one masked write pass: the columns only grow at
the end, the number of rows is unchanged, the frame stays rectangular,
and every pre-existing column value of every row the mask does not select
is unchanged. -/
def UnchOn (mask : List Bool) (df df' : Df) : Prop :=
  (∃ t, df'.cols = df.cols ++ t)
  ∧ df'.rows.length = df.rows.length
  ∧ WfDf df'
  ∧ ∀ i, mask.getD i false = false → ∀ c ∈ df.cols, getCell df' i c = getCell df i c

/-- End of the 4-byte-length-prefixed name field of a metadata record
(the decoder's first `offset += 4 + name_len`). -/
def mdNameEnd (data : Bytes) : Nat := 65 + (4 + leNat (pySlice data 65 4))

/-- End of the symbol field. -/
def mdSymbolEnd (data : Bytes) : Nat :=
  mdNameEnd data + (4 + leNat (pySlice data (mdNameEnd data) 4))

/-- End of the uri field. -/
def mdUriEnd (data : Bytes) : Nat :=
  mdSymbolEnd data + (4 + leNat (pySlice data (mdSymbolEnd data) 4))

/-- Position of the 1-byte has-creators flag (after the 2-byte fee). -/
def mdCreatorFlagPos (data : Bytes) : Nat := mdUriEnd data + 2

/-- End of the creator list: 4-byte count plus `count * 34` bytes. -/
def mdCreatorsEnd (data : Bytes) : Nat :=
  (mdCreatorFlagPos data + 1) + (4 + leNat (pySlice data (mdCreatorFlagPos data + 1) 4) * 34)

theorem readExact?_eq_some {data : Bytes} {off n : Nat} (h : off + n ≤ data.length) :
    readExact? data off n = some (pySlice data off n) := by
  simp [readExact?, h]

theorem readExact?_eq_none {data : Bytes} {off n : Nat} (h : data.length < off + n) :
    readExact? data off n = none := by
  simp [readExact?]; omega

theorem readLE?_eq_some {data : Bytes} {off n : Nat} (h : off + n ≤ data.length) :
    readLE? data off n = some (leNat (pySlice data off n)) := by
  simp [readLE?, readExact?_eq_some h]

theorem readLE?_eq_none {data : Bytes} {off n : Nat} (h : data.length < off + n) :
    readLE? data off n = none := by
  simp [readLE?, readExact?_eq_none h]

/-- The loop exits normally as soon as fewer than 4 bytes remain. -/
theorem tlvLoop_stop {fuel : Nat} {data : Bytes} {offset : Nat} {info : MintInfo} {fe : Bool}
    (h : data.length < offset + 4) :
    tlvLoop fuel data offset info fe = ⟨info, false, fe, false, false⟩ := by
  rw [tlvLoop.eq_def, if_neg (by omega)]

/-- The loop aborts with `parse_fail = true`, returning the facts gathered
so far, when the declared extension length overruns the buffer. -/
theorem tlvLoop_abort {fuel : Nat} {data : Bytes} {offset : Nat} {info : MintInfo} {fe : Bool}
    (h4 : offset + 4 ≤ data.length)
    (hL : data.length < offset + 4 + leNat (pySlice data (offset + 2) 2)) (hf : fuel ≠ 0) :
    tlvLoop fuel data offset info fe = ⟨info, true, fe, false, false⟩ := by
  obtain ⟨f, rfl⟩ := Nat.exists_eq_succ_of_ne_zero hf
  rw [tlvLoop.eq_def, if_pos h4]
  rw [readLE?_eq_some (by omega), readLE?_eq_some (by omega)]
  simp only [if_pos hL]

/-- One in-bounds iteration of the loop: consume the 4-byte tag/length
header and the declared payload, apply the extension, continue. -/
theorem tlvLoop_step {fuel : Nat} {data : Bytes} {offset : Nat} {info : MintInfo} {fe : Bool}
    (h4 : offset + 4 ≤ data.length)
    (hin : offset + 4 + leNat (pySlice data (offset + 2) 2) ≤ data.length) :
    tlvLoop (fuel + 1) data offset info fe =
      tlvLoop fuel data (offset + 4 + leNat (pySlice data (offset + 2) 2))
        (applyExt info (leNat (pySlice data offset 2))
          (pySlice data (offset + 4) (leNat (pySlice data (offset + 2) 2)))) true := by
  rw [tlvLoop.eq_def, if_pos h4]
  rw [readLE?_eq_some (by omega), readLE?_eq_some (by omega)]
  simp only [if_neg (by omega : ¬ data.length < offset + 4 + leNat (pySlice data (offset + 2) 2))]

/-- The guarded reads inside the loop never raise: the `struct.error`
branch of its body is dead code. -/
theorem tlvLoop_no_structErr (fuel : Nat) :
    ∀ (data : Bytes) (offset : Nat) (info : MintInfo) (fe : Bool),
      (tlvLoop fuel data offset info fe).structErr = false := by
  induction fuel with
  | zero =>
    intro data offset info fe
    rw [tlvLoop.eq_def]
    split <;> rfl
  | succ f ih =>
    intro data offset info fe
    rw [tlvLoop.eq_def]
    by_cases h4 : offset + 4 ≤ data.length
    · rw [if_pos h4, readLE?_eq_some (by omega), readLE?_eq_some (by omega)]
      by_cases hL : data.length < offset + 4 + leNat (pySlice data (offset + 2) 2)
      · simp only [if_pos hL]
      · simp only [if_neg hL]
        exact ih _ _ _ _
    · rw [if_neg h4]

/-- `data.length` is always sufficient fuel for the loop: the embedding's
fuel-exhaustion branch is unreachable. -/
theorem tlvLoop_no_fuelOut (fuel : Nat) :
    ∀ (data : Bytes) (offset : Nat) (info : MintInfo) (fe : Bool),
      data.length ≤ offset + 4 * fuel →
      (tlvLoop fuel data offset info fe).fuelOut = false := by
  induction fuel with
  | zero =>
    intro data offset info fe hb
    rw [tlvLoop.eq_def, if_neg (by omega)]
  | succ f ih =>
    intro data offset info fe hb
    rw [tlvLoop.eq_def]
    by_cases h4 : offset + 4 ≤ data.length
    · rw [if_pos h4, readLE?_eq_some (by omega), readLE?_eq_some (by omega)]
      by_cases hL : data.length < offset + 4 + leNat (pySlice data (offset + 2) 2)
      · simp only [if_pos hL]
      · simp only [if_neg hL]
        exact ih _ _ _ _ (by omega)
    · rw [if_neg h4]

/-- The empty-facts results of `parse_token_2022_mint` are exactly the
too-short buffers and the buffers whose fixed header raises. -/
theorem parse_token_2022_mint_none_iff (data : Bytes) :
    (parse_token_2022_mint data).1 = none ↔
      data.length < 14 ∨ parseHeader data = none := by
  unfold parse_token_2022_mint
  by_cases h : data.length < 14
  · simp [h]
  · simp only [if_neg h]
    cases hp : parseHeader data with
    | none => simp [h, hp]
    | some p => simp [h, hp]

/-- Branch analysis of `get_metadata_is_mutable`: either it returns
`none`, or none of the bounds checks along its offset chain fired. -/
theorem gmim_spec (data : Bytes) :
    get_metadata_is_mutable data = none ∨
      (67 ≤ data.length ∧ mdNameEnd data ≤ data.length ∧ mdSymbolEnd data ≤ data.length
        ∧ mdUriEnd data ≤ data.length
        ∧ (leNat (pySlice data (mdCreatorFlagPos data) 1) = 1 →
            mdCreatorsEnd data ≤ data.length)) := by
  simp only [mdNameEnd, mdSymbolEnd, mdUriEnd, mdCreatorFlagPos, mdCreatorsEnd]
  unfold get_metadata_is_mutable
  by_cases h67 : data.length < 67
  · left; rw [if_pos h67]
  rw [if_neg h67]
  by_cases hnr : data.length < 69
  · left; rw [readLE?_eq_none (by omega)]
  rw [readLE?_eq_some (by omega)]
  dsimp only []
  set a := leNat (pySlice data 65 4) with ha
  by_cases h1 : data.length < 65 + (4 + a)
  · left; rw [if_pos h1]
  rw [if_neg h1]
  by_cases hsr : data.length < 65 + (4 + a) + 4
  · left; rw [readLE?_eq_none (by omega)]
  rw [readLE?_eq_some (by omega)]
  dsimp only []
  set b := leNat (pySlice data (65 + (4 + a)) 4) with hb
  by_cases h2 : data.length < 65 + (4 + a) + (4 + b)
  · left; rw [if_pos h2]
  rw [if_neg h2]
  by_cases hur : data.length < 65 + (4 + a) + (4 + b) + 4
  · left; rw [readLE?_eq_none (by omega)]
  rw [readLE?_eq_some (by omega)]
  dsimp only []
  set c := leNat (pySlice data (65 + (4 + a) + (4 + b)) 4) with hc
  by_cases h3 : data.length < 65 + (4 + a) + (4 + b) + (4 + c)
  · left; rw [if_pos h3]
  rw [if_neg h3]
  by_cases h4 : data.length < 65 + (4 + a) + (4 + b) + (4 + c) + 2
  · left; rw [if_pos h4]
  rw [if_neg h4]
  by_cases hcr : data.length < 65 + (4 + a) + (4 + b) + (4 + c) + 2 + 1
  · left; rw [readLE?_eq_none (by omega)]
  rw [readLE?_eq_some (by omega)]
  dsimp only []
  set e := leNat (pySlice data (65 + (4 + a) + (4 + b) + (4 + c) + 2) 1) with he
  by_cases hc1 : e = 1
  · rw [if_pos hc1]
    by_cases hncr : data.length < 65 + (4 + a) + (4 + b) + (4 + c) + 2 + 1 + 4
    · left; rw [readLE?_eq_none (by omega)]
    rw [readLE?_eq_some (by omega)]
    dsimp only []
    set f := leNat (pySlice data (65 + (4 + a) + (4 + b) + (4 + c) + 2 + 1) 4) with hf
    by_cases h5 : data.length < 65 + (4 + a) + (4 + b) + (4 + c) + 2 + 1 + (4 + f * 34)
    · left; rw [if_pos h5]
    rw [if_neg h5]
    dsimp only []
    right
    exact ⟨by omega, by omega, by omega, by omega, fun _ => by omega⟩
  · rw [if_neg hc1]
    dsimp only []
    right
    exact ⟨by omega, by omega, by omega, by omega, fun hx => absurd hx hc1⟩

/-- C4: for every buffer, the TLV loop of the Extension-Chain decoder
(entered with the fuel `parse_token_2022_mint` passes) never takes its
`struct.error` branch and never runs out of fuel; when at least 4 bytes
remain but the declared extension length exceeds the remaining bytes it
aborts with `parse_fail = true`, returning exactly the facts accumulated
so far; and when fewer than 4 bytes remain it exits normally without
reading anything. -/
theorem c4_tlv_loop_never_overreads (data : Bytes) (offset : Nat) (info : MintInfo) (fe : Bool) :
    ((tlvLoop data.length data offset info fe).structErr = false
      ∧ (tlvLoop data.length data offset info fe).fuelOut = false)
    ∧ (offset + 4 ≤ data.length →
        data.length < offset + 4 + leNat (pySlice data (offset + 2) 2) →
        tlvLoop data.length data offset info fe = ⟨info, true, fe, false, false⟩)
    ∧ (data.length < offset + 4 →
        tlvLoop data.length data offset info fe = ⟨info, false, fe, false, false⟩) := by
  refine ⟨⟨tlvLoop_no_structErr _ _ _ _ _, tlvLoop_no_fuelOut _ _ _ _ _ (by omega)⟩, ?_, ?_⟩
  · intro h4 hL
    exact tlvLoop_abort h4 hL (by omega)
  · intro h
    exact tlvLoop_stop h

/-- Witness for C4: a 5-byte buffer whose single extension declares a
5-byte payload with only 1 byte remaining aborts with `parse_fail`. -/
theorem c4_witness :
    tlvLoop ([0, 0, 5, 0, 1] : Bytes).length [0, 0, 5, 0, 1] 0
        ⟨none, none, 0, 0, false, Mut.unknown, none, false⟩ false
      = ⟨⟨none, none, 0, 0, false, Mut.unknown, none, false⟩, true, false, false, false⟩ :=
  (c4_tlv_loop_never_overreads [0, 0, 5, 0, 1] 0
    ⟨none, none, 0, 0, false, Mut.unknown, none, false⟩ false).2.1 (by decide) (by decide)

/-- C5: the Metadata Mutability Decoder is a total function that yields
`none` whenever the buffer is shorter than the 67-byte minimum, or the
name, symbol or uri length field would overrun the remaining buffer, or
the creator list (4-byte count plus count × 34 bytes) would overrun. -/
theorem c5_metadata_decoder_bounds (data : Bytes) :
    (data.length < 67 → get_metadata_is_mutable data = none)
    ∧ (data.length < mdNameEnd data → get_metadata_is_mutable data = none)
    ∧ (data.length < mdSymbolEnd data → get_metadata_is_mutable data = none)
    ∧ (data.length < mdUriEnd data → get_metadata_is_mutable data = none)
    ∧ (leNat (pySlice data (mdCreatorFlagPos data) 1) = 1 →
        data.length < mdCreatorsEnd data → get_metadata_is_mutable data = none) := by
  rcases gmim_spec data with h | ⟨h1, h2, h3, h4, h5⟩
  · exact ⟨fun _ => h, fun _ => h, fun _ => h, fun _ => h, fun _ _ => h⟩
  · refine ⟨fun hx => absurd hx (by omega), fun hx => absurd hx (by omega),
      fun hx => absurd hx (by omega), fun hx => absurd hx (by omega),
      fun hc hx => absurd hx (by have := h5 hc; omega)⟩

/-- Witness for C5: a 77-byte buffer with empty name and symbol whose
`uri_len` field claims 65535 bytes decodes to `none`. -/
theorem c5_witness :
    get_metadata_is_mutable
      (List.replicate 65 0 ++ [0, 0, 0, 0] ++ [0, 0, 0, 0] ++ [255, 255, 0, 0]) = none :=
  (c5_metadata_decoder_bounds
    (List.replicate 65 0 ++ [0, 0, 0, 0] ++ [0, 0, 0, 0] ++ [255, 255, 0, 0])).2.2.2.1
    (by decide)

/-- C7: for every non-empty facts dict, the classifier is `Safe` iff its
reason list is empty; the reason list is always an ordered sublist of the
fixed evaluation order (authority reasons first — `"mintable"` then
`"freezeable"` — before the metadata reasons, before `"parse_fail"`); and
facts with no mint authority, no freeze authority, immutable metadata and
no parse failure classify as `Safe` with no reasons. -/
theorem c7_safe_iff_reasons_empty (info : Dict) (pf : Bool) (hne : info ≠ []) :
    ((classify info pf).1 = Verdict.safe ↔ (classify info pf).2 = [])
    ∧ (classify info pf).2.Sublist
        ["mintable", "freezeable", "metadata mutable", "parse_fail or unknown mutability", "parse_fail"]
    ∧ (info.lookup "mint_authority" = some none →
        info.lookup "freeze_authority" = some none →
        pyStr (info.lookup "metadata_mutable") = "0" →
        pf = false →
        classify info pf = (Verdict.safe, [])) := by
  have hE : info.isEmpty = false := by
    cases info
    · exact absurd rfl hne
    · rfl
  refine ⟨?_, ?_, ?_⟩
  · by_cases hm1 : pyStr (info.lookup "metadata_mutable") = "1"
    · cases hb1 : pyTruthy (info.lookup "mint_authority") <;>
        cases hb2 : pyTruthy (info.lookup "freeze_authority") <;>
        cases pf <;> simp [classify, hE, hb1, hb2, hm1]
    · by_cases hm0 : pyStr (info.lookup "metadata_mutable") = "0" <;>
        cases hb1 : pyTruthy (info.lookup "mint_authority") <;>
        cases hb2 : pyTruthy (info.lookup "freeze_authority") <;>
        cases pf <;> simp [classify, hE, hb1, hb2, hm1, hm0]
  · by_cases hm1 : pyStr (info.lookup "metadata_mutable") = "1"
    · cases hb1 : pyTruthy (info.lookup "mint_authority") <;>
        cases hb2 : pyTruthy (info.lookup "freeze_authority") <;>
        cases pf <;> simp [classify, hE, hb1, hb2, hm1]
    · by_cases hm0 : pyStr (info.lookup "metadata_mutable") = "0" <;>
        cases hb1 : pyTruthy (info.lookup "mint_authority") <;>
        cases hb2 : pyTruthy (info.lookup "freeze_authority") <;>
        cases pf <;> simp [classify, hE, hb1, hb2, hm1, hm0] <;>
        first
        | decide
        | skip
  · intro h1 h2 h3 hpf
    subst hpf
    have hb1 : pyTruthy (info.lookup "mint_authority") = false := by rw [h1]; rfl
    have hb2 : pyTruthy (info.lookup "freeze_authority") = false := by rw [h2]; rfl
    simp [classify, hE, hb1, hb2, h3]

/-- Witness for C7: facts with `None` authorities and `"0"` mutability,
no parse failure, classify as `Safe` with an empty reason list. -/
theorem c7_witness :
    classify [("mint_authority", none), ("freeze_authority", none),
              ("metadata_mutable", some "0")] false = (Verdict.safe, []) :=
  (c7_safe_iff_reasons_empty
    [("mint_authority", none), ("freeze_authority", none), ("metadata_mutable", some "0")]
    false (by decide)).2.2 (by decide) (by decide) (by decide) rfl

/-- The classifier on any non-empty facts dict whose `metadata_mutable`
is Python `None` or the string `"unknown"`: always `Danger`, with the
undetermined-metadata reason, never `Safe`. -/
theorem classify_undetermined (info : Dict) (pf : Bool) (hne : info ≠ [])
    (hmu : info.lookup "metadata_mutable" = some none ∨
      pyStr (info.lookup "metadata_mutable") = "unknown") :
    (classify info pf).1 = Verdict.danger
    ∧ "parse_fail or unknown mutability" ∈ (classify info pf).2
    ∧ (classify info pf).1 ≠ Verdict.safe := by
  have hE : info.isEmpty = false := by
    cases info
    · exact absurd rfl hne
    · rfl
  have hval : pyStr (info.lookup "metadata_mutable") = "None" ∨
      pyStr (info.lookup "metadata_mutable") = "unknown" := by
    rcases hmu with h | h
    · left; rw [h]; rfl
    · right; exact h
  have hm1 : ¬ pyStr (info.lookup "metadata_mutable") = "1" := by
    rcases hval with h | h <;> rw [h] <;> decide
  have hm0 : ¬ pyStr (info.lookup "metadata_mutable") = "0" := by
    rcases hval with h | h <;> rw [h] <;> decide
  cases hb1 : pyTruthy (info.lookup "mint_authority") <;>
    cases hb2 : pyTruthy (info.lookup "freeze_authority") <;>
    cases pf <;> simp [classify, hE, hb1, hb2, hm1, hm0]

/-- C1: every inspected account — whatever the fetched account, derived
metadata bytes and pointer-addressed metadata bytes, hence on the legacy
path and the extension-chain path alike — whose resulting facts carry an
undeterminable metadata mutability (`None` / `"unknown"`) classifies as
`Danger` with the `"parse_fail or unknown mutability"` reason, and never
as `Safe`. -/
theorem c1_undetermined_metadata_never_safe (acct : Option RawAccount)
    (metaD : Option Bytes) (metaP : Bytes → Option Bytes)
    (hne : (fetch_mint_info acct metaD metaP).1 ≠ [])
    (hmu : (fetch_mint_info acct metaD metaP).1.lookup "metadata_mutable" = some none ∨
      pyStr ((fetch_mint_info acct metaD metaP).1.lookup "metadata_mutable") = "unknown") :
    (classify (fetch_mint_info acct metaD metaP).1 (fetch_mint_info acct metaD metaP).2).1
        = Verdict.danger
    ∧ "parse_fail or unknown mutability"
        ∈ (classify (fetch_mint_info acct metaD metaP).1 (fetch_mint_info acct metaD metaP).2).2
    ∧ (classify (fetch_mint_info acct metaD metaP).1 (fetch_mint_info acct metaD metaP).2).1
        ≠ Verdict.safe :=
  classify_undetermined _ _ hne hmu

/-- Witness for C1: a Token-2022 account whose 18-byte data parses to a
header with no extensions (mutability `"unknown"`) is classified
`Danger`, not `Safe`. -/
theorem c1_witness :
    (classify (fetch_mint_info (some ⟨Owner.token2022, some (List.replicate 18 0)⟩) none
        (fun _ => none)).1
      (fetch_mint_info (some ⟨Owner.token2022, some (List.replicate 18 0)⟩) none
        (fun _ => none)).2).1 = Verdict.danger
    ∧ "parse_fail or unknown mutability"
        ∈ (classify (fetch_mint_info (some ⟨Owner.token2022, some (List.replicate 18 0)⟩) none
            (fun _ => none)).1
          (fetch_mint_info (some ⟨Owner.token2022, some (List.replicate 18 0)⟩) none
            (fun _ => none)).2).2
    ∧ (classify (fetch_mint_info (some ⟨Owner.token2022, some (List.replicate 18 0)⟩) none
        (fun _ => none)).1
      (fetch_mint_info (some ⟨Owner.token2022, some (List.replicate 18 0)⟩) none
        (fun _ => none)).2).1 ≠ Verdict.safe :=
  c1_undetermined_metadata_never_safe (some ⟨Owner.token2022, some (List.replicate 18 0)⟩)
    none (fun _ => none) (by decide) (Or.inr (by decide))

/-- Counterexample to C3 as stated: an 82-byte legacy-layout buffer with
`mint_authority_option = 0` and supply 1.  The Legacy decoder reads the
supply at its fixed offset 36, while the Extension-Chain decoder, having
skipped no authority field, reads it at offset 4 — the two decoders
disagree on the fixed-header fields of this buffer. -/
theorem c3_counterexample :
    (([0, 0, 0, 0] ++ List.replicate 32 0 ++ [1, 0, 0, 0, 0, 0, 0, 0] ++ [6] ++ [1]
        ++ [0, 0, 0, 0] ++ List.replicate 32 0 : Bytes).length = 82)
    ∧ extHeaderFacts ([0, 0, 0, 0] ++ List.replicate 32 0 ++ [1, 0, 0, 0, 0, 0, 0, 0] ++ [6] ++ [1]
        ++ [0, 0, 0, 0] ++ List.replicate 32 0)
      ≠ some (legacyHeaderFacts ([0, 0, 0, 0] ++ List.replicate 32 0 ++ [1, 0, 0, 0, 0, 0, 0, 0]
        ++ [6] ++ [1] ++ [0, 0, 0, 0] ++ List.replicate 32 0)) := by
  constructor
  · decide
  · decide

/-- C3 (amended): on every 82-byte buffer whose two authority-option
words both equal exactly 1, the Extension-Chain decoder's fixed-header
fields coincide with the Legacy decoder's (when an option word differs
from 1 the extension path omits the 32-byte authority slot and reads the
remaining fields at shifted offsets, so the fields differ in general). -/
theorem c3_amended_header_agreement (data : Bytes) (h82 : data.length = 82)
    (hm : leNat (pySlice data 0 4) = 1) (hf : leNat (pySlice data 46 4) = 1) :
    extHeaderFacts data = some (legacyHeaderFacts data) := by
  unfold extHeaderFacts parseHeader
  rw [readLE?_eq_some (by omega)]
  dsimp only []
  rw [if_pos hm, readExact?_eq_some (by omega)]
  simp only [Option.map_some']
  rw [readLE?_eq_some (by omega)]
  dsimp only []
  rw [readLE?_eq_some (by omega)]
  dsimp only []
  rw [readLE?_eq_some (by omega)]
  dsimp only []
  rw [readLE?_eq_some (by omega)]
  dsimp only []
  rw [if_pos (show leNat (pySlice data (36 + 10) 4) = 1 by norm_num; exact hf)]
  rw [readExact?_eq_some (by omega)]
  simp only [Option.map_some']
  simp only [legacyHeaderFacts, mintLayoutParse]
  norm_num [hm, hf]

/-- Witness for the amended C3: a concrete 82-byte buffer with both
option words 1 on which the two decoders' header facts agree. -/
theorem c3_amended_witness :
    extHeaderFacts ([1, 0, 0, 0] ++ List.replicate 32 9 ++ [5, 0, 0, 0, 0, 0, 0, 0] ++ [6] ++ [1]
        ++ [1, 0, 0, 0] ++ List.replicate 32 8)
      = some (legacyHeaderFacts ([1, 0, 0, 0] ++ List.replicate 32 9 ++ [5, 0, 0, 0, 0, 0, 0, 0]
        ++ [6] ++ [1] ++ [1, 0, 0, 0] ++ List.replicate 32 8)) :=
  c3_amended_header_agreement
    ([1, 0, 0, 0] ++ List.replicate 32 9 ++ [5, 0, 0, 0, 0, 0, 0, 0] ++ [6] ++ [1]
      ++ [1, 0, 0, 0] ++ List.replicate 32 8) (by decide) (by decide) (by decide)

/-- On a non-empty facts dict the classifier never answers `Unknown`. -/
theorem classify_fst_ne_unknown (info : Dict) (pf : Bool) (hne : info.isEmpty = false) :
    (classify info pf).1 ≠ Verdict.unknown := by
  by_cases hm1 : pyStr (info.lookup "metadata_mutable") = "1"
  · cases hb1 : pyTruthy (info.lookup "mint_authority") <;>
      cases hb2 : pyTruthy (info.lookup "freeze_authority") <;>
      cases pf <;> simp [classify, hne, hb1, hb2, hm1]
  · by_cases hm0 : pyStr (info.lookup "metadata_mutable") = "0" <;>
      cases hb1 : pyTruthy (info.lookup "mint_authority") <;>
      cases hb2 : pyTruthy (info.lookup "freeze_authority") <;>
      cases pf <;> simp [classify, hne, hb1, hb2, hm1, hm0]

/-- The dict built from parsed mint facts is never empty. -/
theorem dictOf_isEmpty (i : MintInfo) : (dictOf i).isEmpty = false := rfl

/-- Counterexample to C2 as stated: a retrieved account with byte data,
owned by the recognized legacy token program, whose 81-byte buffer fails
the length check — the verdict is `Unknown` although the account was
fetched and its owner was recognized. -/
theorem c2_counterexample :
    verdictOf (some ⟨Owner.spl, some (List.replicate 81 0)⟩) none (fun _ => none)
        = Verdict.unknown
    ∧ Owner.spl ≠ Owner.other
    ∧ (some (⟨Owner.spl, some (List.replicate 81 0)⟩ : RawAccount)).isSome = true
    ∧ (List.replicate 81 0 : Bytes).length ≠ 0 := by
  refine ⟨by decide, by decide, by decide, by decide⟩

/-- C2 (amended): the verdict is `Unknown` exactly when the account could
not be retrieved (no account, or data not bytes), the owner matched
neither known token program, the owner was the legacy program but the
data length was not 82, or the owner was the extensible program but the
fixed header could not be decoded (buffer under 14 bytes, or a header
read raised). -/
theorem c2_unknown_exactly (acct : Option RawAccount) (metaD : Option Bytes)
    (metaP : Bytes → Option Bytes) :
    verdictOf acct metaD metaP = Verdict.unknown ↔ yieldsUnknown acct := by
  cases acct with
  | none => simp [verdictOf, fetch_mint_info, classify, yieldsUnknown]
  | some a =>
    obtain ⟨owner, dataOpt⟩ := a
    cases dataOpt with
    | none => simp [verdictOf, fetch_mint_info, classify, yieldsUnknown]
    | some data =>
      cases owner with
      | spl =>
        by_cases h82 : data.length = 82
        · have hne : ¬ data.length ≠ 82 := by omega
          simp only [yieldsUnknown, verdictOf, fetch_mint_info, if_neg hne]
          constructor
          · intro hv
            exact absurd hv (classify_fst_ne_unknown _ _ (dictOf_isEmpty _))
          · intro hv
            exact absurd h82 hv
        · simp only [yieldsUnknown, verdictOf, fetch_mint_info, if_pos h82]
          simp [classify, h82]
      | token2022 =>
        rcases hpp : parse_token_2022_mint data with ⟨inf, pf⟩
        cases inf with
        | none =>
          have hdisj := (parse_token_2022_mint_none_iff data).1 (by rw [hpp])
          simp only [yieldsUnknown, verdictOf, fetch_mint_info, hpp]
          simp [classify, hdisj]
        | some i =>
          have hdisj : ¬ (data.length < 14 ∨ parseHeader data = none) := by
            intro hc
            have := (parse_token_2022_mint_none_iff data).2 hc
            rw [hpp] at this
            exact Option.some_ne_none i this
          simp only [yieldsUnknown, verdictOf, fetch_mint_info, hpp]
          simp only [hdisj, iff_false]
          exact classify_fst_ne_unknown _ _ (dictOf_isEmpty _)
      | other => simp [verdictOf, fetch_mint_info, classify, yieldsUnknown]

/-- Counterexample to C6 as stated: on an 81-byte legacy-owner buffer the
decode path returns empty facts with the failure flag `false` — not a
`MalformedRecord` failure — and the classifier maps it to `Unknown` with
an empty reason list, not to `Danger`. -/
theorem c6_counterexample :
    fetch_mint_info (some ⟨Owner.spl, some (List.replicate 81 0)⟩) none (fun _ => none)
        = ([], false)
    ∧ verdictOf (some ⟨Owner.spl, some (List.replicate 81 0)⟩) none (fun _ => none)
        = Verdict.unknown
    ∧ verdictOf (some ⟨Owner.spl, some (List.replicate 81 0)⟩) none (fun _ => none)
        ≠ Verdict.danger
    ∧ (classify [] false).2 = [] := by
  refine ⟨by decide, by decide, by decide, by decide⟩

/-- C6 (amended): for every byte buffer whose length is not exactly 82,
the legacy decode path returns empty facts with the failure flag `false`
— reading no field of the buffer — and the classifier maps that result to
the `Unknown` verdict (`NO_DATA`), not to `Danger`. -/
theorem c6_wrong_length_gives_unknown (data : Bytes) (metaD : Option Bytes)
    (metaP : Bytes → Option Bytes) (h : data.length ≠ 82) :
    fetch_mint_info (some ⟨Owner.spl, some data⟩) metaD metaP = ([], false)
    ∧ verdictOf (some ⟨Owner.spl, some data⟩) metaD metaP = Verdict.unknown := by
  have h1 : fetch_mint_info (some ⟨Owner.spl, some data⟩) metaD metaP = ([], false) := by
    simp only [fetch_mint_info, if_pos h]
  refine ⟨h1, ?_⟩
  unfold verdictOf
  rw [h1]
  rfl

/-- Witness for the amended C6, at the 81-byte buffer. -/
theorem c6_witness :
    fetch_mint_info (some ⟨Owner.spl, some (List.replicate 81 5)⟩) none (fun _ => none)
        = ([], false)
    ∧ verdictOf (some ⟨Owner.spl, some (List.replicate 81 5)⟩) none (fun _ => none)
        = Verdict.unknown :=
  c6_wrong_length_gives_unknown (List.replicate 81 5) none (fun _ => none) (by decide)

/-- C8: for every 32-byte address `A`, decoding a synthetic extensible
buffer — a zero fixed header followed by one in-bounds type-12 extension
whose payload is `A` — yields a metadata pointer equal to `A`, with no
parse failure. -/
theorem c8_metadata_pointer_roundtrip (A : Bytes) (h32 : A.length = 32) :
    ((parse_token_2022_mint (List.replicate 18 0 ++ ([12, 0, 32, 0] ++ A))).1.map
        (fun i => i.metadata_account)) = some (some A)
    ∧ (parse_token_2022_mint (List.replicate 18 0 ++ ([12, 0, 32, 0] ++ A))).2 = false := by
  have hlen : (List.replicate 18 0 ++ ([12, 0, 32, 0] ++ A) : Bytes).length = 54 := by
    simp [h32]
  have hhead : parseHeader (List.replicate 18 0 ++ ([12, 0, 32, 0] ++ A))
      = some (⟨none, none, 0, 0, false, Mut.unknown, none, false⟩, 18) := by
    have r1 : readLE? (List.replicate 18 0 ++ ([12, 0, 32, 0] ++ A)) 0 4 = some 0 := by
      rw [readLE?_eq_some (by omega)]; rfl
    have r2 : readLE? (List.replicate 18 0 ++ ([12, 0, 32, 0] ++ A)) 4 8 = some 0 := by
      rw [readLE?_eq_some (by omega)]; rfl
    have r3 : readLE? (List.replicate 18 0 ++ ([12, 0, 32, 0] ++ A)) 12 1 = some 0 := by
      rw [readLE?_eq_some (by omega)]; rfl
    have r4 : readLE? (List.replicate 18 0 ++ ([12, 0, 32, 0] ++ A)) 13 1 = some 0 := by
      rw [readLE?_eq_some (by omega)]; rfl
    have r5 : readLE? (List.replicate 18 0 ++ ([12, 0, 32, 0] ++ A)) 14 4 = some 0 := by
      rw [readLE?_eq_some (by omega)]; rfl
    unfold parseHeader
    rw [r1]
    dsimp only []
    rw [if_neg (by norm_num : ¬ (0 : Nat) = 1)]
    dsimp only []
    rw [r2]
    dsimp only []
    rw [r3]
    dsimp only []
    rw [r4]
    dsimp only []
    rw [r5]
    dsimp only []
    rw [if_neg (by norm_num : ¬ (0 : Nat) = 1)]
    rfl
  have hextlen :
      leNat (pySlice (List.replicate 18 0 ++ ([12, 0, 32, 0] ++ A)) (18 + 2) 2) = 32 := rfl
  have htag :
      leNat (pySlice (List.replicate 18 0 ++ ([12, 0, 32, 0] ++ A)) 18 2) = 12 := rfl
  have hpayload : pySlice (List.replicate 18 0 ++ ([12, 0, 32, 0] ++ A)) (18 + 4) 32 = A := by
    show (List.drop (18 + 4) (List.replicate 18 0 ++ ([12, 0, 32, 0] ++ A))).take 32 = A
    rw [show List.drop (18 + 4) (List.replicate 18 0 ++ ([12, 0, 32, 0] ++ A)) = A from rfl]
    exact List.take_of_length_le (by omega)
  have hloop : tlvLoop 54 (List.replicate 18 0 ++ ([12, 0, 32, 0] ++ A)) 18
      ⟨none, none, 0, 0, false, Mut.unknown, none, false⟩ false
      = ⟨⟨none, none, 0, 0, false, Mut.unknown, some A, false⟩, false, true, false, false⟩ := by
    rw [show (54 : Nat) = 53 + 1 from rfl]
    rw [tlvLoop_step (by omega) (by rw [hextlen]; omega)]
    rw [hextlen, htag, hpayload]
    have happ : applyExt ⟨none, none, 0, 0, false, Mut.unknown, none, false⟩ 12 A
        = ⟨none, none, 0, 0, false, Mut.unknown, some A, false⟩ := by
      simp [applyExt, h32, List.take_of_length_le h32.le]
    rw [happ]
    rw [tlvLoop_stop (by omega)]
  constructor
  · unfold parse_token_2022_mint
    rw [if_neg (by omega), hhead]
    dsimp only []
    rw [hlen, hloop]
    rfl
  · unfold parse_token_2022_mint
    rw [if_neg (by omega), hhead]
    dsimp only []
    rw [hlen, hloop]
    rfl

/-- Witness for C8 at a concrete address. -/
theorem c8_witness :
    ((parse_token_2022_mint (List.replicate 18 0 ++ ([12, 0, 32, 0] ++ List.replicate 32 7))).1.map
        (fun i => i.metadata_account)) = some (some (List.replicate 32 7))
    ∧ (parse_token_2022_mint (List.replicate 18 0 ++ ([12, 0, 32, 0] ++ List.replicate 32 7))).2
        = false :=
  c8_metadata_pointer_roundtrip (List.replicate 32 7) (by decide)

set_option maxHeartbeats 1600000 in
/-- C10: a type-13 extension with non-empty payload marks the metadata
mutable exactly when its first payload byte equals 1 (any other value,
including values ≥ 2, marks it not mutable); and when two in-bounds
type-13 (resp. type-12) extensions occur in one buffer, the value
recorded by the decoder is the one of the last extension. -/
theorem c10_type13_first_byte_last_wins :
    (∀ (info : MintInfo) (b : Nat) (rest : Bytes),
        (applyExt info 13 (b :: rest)).metadata_mutable
          = if b = 1 then Mut.yes else Mut.no)
    ∧ (∀ b1 b2 : Nat,
        ((parse_token_2022_mint
            (List.replicate 18 0 ++ ([13, 0, 1, 0, b1] ++ [13, 0, 1, 0, b2]))).1.map
          (fun i => i.metadata_mutable)) = some (if b2 = 1 then Mut.yes else Mut.no))
    ∧ (∀ A2 : Bytes, A2.length = 32 →
        ((parse_token_2022_mint
            (List.replicate 18 0
              ++ ([12, 0, 32, 0] ++ (List.replicate 32 5 ++ ([12, 0, 32, 0] ++ A2))))).1.map
          (fun i => i.metadata_account)) = some (some A2)) := by
  refine ⟨?_, ?_, ?_⟩
  · intro info b rest
    simp [applyExt]
  · intro b1 b2
    have hlen : (List.replicate 18 0 ++ ([13, 0, 1, 0, b1] ++ [13, 0, 1, 0, b2]) : Bytes).length
        = 28 := by simp
    have hhead : parseHeader (List.replicate 18 0 ++ ([13, 0, 1, 0, b1] ++ [13, 0, 1, 0, b2]))
        = some (⟨none, none, 0, 0, false, Mut.unknown, none, false⟩, 18) := by
      have r1 : readLE? (List.replicate 18 0 ++ ([13, 0, 1, 0, b1] ++ [13, 0, 1, 0, b2])) 0 4
          = some 0 := by rw [readLE?_eq_some (by omega)]; rfl
      have r2 : readLE? (List.replicate 18 0 ++ ([13, 0, 1, 0, b1] ++ [13, 0, 1, 0, b2])) 4 8
          = some 0 := by rw [readLE?_eq_some (by omega)]; rfl
      have r3 : readLE? (List.replicate 18 0 ++ ([13, 0, 1, 0, b1] ++ [13, 0, 1, 0, b2])) 12 1
          = some 0 := by rw [readLE?_eq_some (by omega)]; rfl
      have r4 : readLE? (List.replicate 18 0 ++ ([13, 0, 1, 0, b1] ++ [13, 0, 1, 0, b2])) 13 1
          = some 0 := by rw [readLE?_eq_some (by omega)]; rfl
      have r5 : readLE? (List.replicate 18 0 ++ ([13, 0, 1, 0, b1] ++ [13, 0, 1, 0, b2])) 14 4
          = some 0 := by rw [readLE?_eq_some (by omega)]; rfl
      unfold parseHeader
      rw [r1]
      dsimp only []
      rw [if_neg (by norm_num : ¬ (0 : Nat) = 1)]
      dsimp only []
      rw [r2]
      dsimp only []
      rw [r3]
      dsimp only []
      rw [r4]
      dsimp only []
      rw [r5]
      dsimp only []
      rw [if_neg (by norm_num : ¬ (0 : Nat) = 1)]
      rfl
    have hext1 : leNat (pySlice (List.replicate 18 0 ++ ([13, 0, 1, 0, b1] ++ [13, 0, 1, 0, b2]))
        (18 + 2) 2) = 1 := rfl
    have htag1 : leNat (pySlice (List.replicate 18 0 ++ ([13, 0, 1, 0, b1] ++ [13, 0, 1, 0, b2]))
        18 2) = 13 := rfl
    have hpay1 : pySlice (List.replicate 18 0 ++ ([13, 0, 1, 0, b1] ++ [13, 0, 1, 0, b2]))
        (18 + 4) 1 = [b1] := rfl
    have hext2 : leNat (pySlice (List.replicate 18 0 ++ ([13, 0, 1, 0, b1] ++ [13, 0, 1, 0, b2]))
        (18 + 4 + 1 + 2) 2) = 1 := rfl
    have htag2 : leNat (pySlice (List.replicate 18 0 ++ ([13, 0, 1, 0, b1] ++ [13, 0, 1, 0, b2]))
        (18 + 4 + 1) 2) = 13 := rfl
    have hpay2 : pySlice (List.replicate 18 0 ++ ([13, 0, 1, 0, b1] ++ [13, 0, 1, 0, b2]))
        (18 + 4 + 1 + 4) 1 = [b2] := rfl
    have happ1 : applyExt ⟨none, none, 0, 0, false, Mut.unknown, none, false⟩ 13 [b1]
        = ⟨none, none, 0, 0, false, if b1 = 1 then Mut.yes else Mut.no, none, false⟩ := by
      simp [applyExt]
    have happ2 : applyExt ⟨none, none, 0, 0, false, if b1 = 1 then Mut.yes else Mut.no, none,
        false⟩ 13 [b2]
        = ⟨none, none, 0, 0, false, if b2 = 1 then Mut.yes else Mut.no, none, false⟩ := by
      simp [applyExt]
    have hloop : tlvLoop 28 (List.replicate 18 0 ++ ([13, 0, 1, 0, b1] ++ [13, 0, 1, 0, b2])) 18
        ⟨none, none, 0, 0, false, Mut.unknown, none, false⟩ false
        = ⟨⟨none, none, 0, 0, false, if b2 = 1 then Mut.yes else Mut.no, none, false⟩,
            false, true, false, false⟩ := by
      rw [show (28 : Nat) = 27 + 1 from rfl]
      rw [tlvLoop_step (by omega) (by rw [hext1]; omega)]
      rw [hext1, htag1, hpay1, happ1]
      rw [show (27 : Nat) = 26 + 1 from rfl]
      rw [tlvLoop_step (by omega) (by rw [hext2]; omega)]
      rw [hext2, htag2, hpay2, happ2]
      rw [tlvLoop_stop (by omega)]
    unfold parse_token_2022_mint
    rw [if_neg (by omega), hhead]
    dsimp only []
    rw [hlen, hloop]
    rfl
  · intro A2 h32
    have hlen : (List.replicate 18 0
        ++ ([12, 0, 32, 0] ++ (List.replicate 32 5 ++ ([12, 0, 32, 0] ++ A2))) : Bytes).length
        = 90 := by simp [h32]
    have hhead : parseHeader (List.replicate 18 0
        ++ ([12, 0, 32, 0] ++ (List.replicate 32 5 ++ ([12, 0, 32, 0] ++ A2))))
        = some (⟨none, none, 0, 0, false, Mut.unknown, none, false⟩, 18) := by
      have r1 : readLE? (List.replicate 18 0
          ++ ([12, 0, 32, 0] ++ (List.replicate 32 5 ++ ([12, 0, 32, 0] ++ A2)))) 0 4
          = some 0 := by rw [readLE?_eq_some (by omega)]; rfl
      have r2 : readLE? (List.replicate 18 0
          ++ ([12, 0, 32, 0] ++ (List.replicate 32 5 ++ ([12, 0, 32, 0] ++ A2)))) 4 8
          = some 0 := by rw [readLE?_eq_some (by omega)]; rfl
      have r3 : readLE? (List.replicate 18 0
          ++ ([12, 0, 32, 0] ++ (List.replicate 32 5 ++ ([12, 0, 32, 0] ++ A2)))) 12 1
          = some 0 := by rw [readLE?_eq_some (by omega)]; rfl
      have r4 : readLE? (List.replicate 18 0
          ++ ([12, 0, 32, 0] ++ (List.replicate 32 5 ++ ([12, 0, 32, 0] ++ A2)))) 13 1
          = some 0 := by rw [readLE?_eq_some (by omega)]; rfl
      have r5 : readLE? (List.replicate 18 0
          ++ ([12, 0, 32, 0] ++ (List.replicate 32 5 ++ ([12, 0, 32, 0] ++ A2)))) 14 4
          = some 0 := by rw [readLE?_eq_some (by omega)]; rfl
      unfold parseHeader
      rw [r1]
      dsimp only []
      rw [if_neg (by norm_num : ¬ (0 : Nat) = 1)]
      dsimp only []
      rw [r2]
      dsimp only []
      rw [r3]
      dsimp only []
      rw [r4]
      dsimp only []
      rw [r5]
      dsimp only []
      rw [if_neg (by norm_num : ¬ (0 : Nat) = 1)]
      rfl
    have hext1 : leNat (pySlice (List.replicate 18 0
        ++ ([12, 0, 32, 0] ++ (List.replicate 32 5 ++ ([12, 0, 32, 0] ++ A2)))) (18 + 2) 2)
        = 32 := rfl
    have htag1 : leNat (pySlice (List.replicate 18 0
        ++ ([12, 0, 32, 0] ++ (List.replicate 32 5 ++ ([12, 0, 32, 0] ++ A2)))) 18 2)
        = 12 := rfl
    have hpay1 : pySlice (List.replicate 18 0
        ++ ([12, 0, 32, 0] ++ (List.replicate 32 5 ++ ([12, 0, 32, 0] ++ A2)))) (18 + 4) 32
        = List.replicate 32 5 := rfl
    have hext2 : leNat (pySlice (List.replicate 18 0
        ++ ([12, 0, 32, 0] ++ (List.replicate 32 5 ++ ([12, 0, 32, 0] ++ A2)))) (18 + 4 + 32 + 2) 2)
        = 32 := rfl
    have htag2 : leNat (pySlice (List.replicate 18 0
        ++ ([12, 0, 32, 0] ++ (List.replicate 32 5 ++ ([12, 0, 32, 0] ++ A2)))) (18 + 4 + 32) 2)
        = 12 := rfl
    have hpay2 : pySlice (List.replicate 18 0
        ++ ([12, 0, 32, 0] ++ (List.replicate 32 5 ++ ([12, 0, 32, 0] ++ A2)))) (18 + 4 + 32 + 4) 32
        = A2 := by
      show (List.drop (18 + 4 + 32 + 4) (List.replicate 18 0
        ++ ([12, 0, 32, 0] ++ (List.replicate 32 5 ++ ([12, 0, 32, 0] ++ A2))))).take 32 = A2
      rw [show List.drop (18 + 4 + 32 + 4) (List.replicate 18 0
        ++ ([12, 0, 32, 0] ++ (List.replicate 32 5 ++ ([12, 0, 32, 0] ++ A2)))) = A2 from rfl]
      exact List.take_of_length_le (by omega)
    have happ1 : applyExt ⟨none, none, 0, 0, false, Mut.unknown, none, false⟩ 12
        (List.replicate 32 5)
        = ⟨none, none, 0, 0, false, Mut.unknown, some (List.replicate 32 5), false⟩ := by
      decide
    have happ2 : applyExt ⟨none, none, 0, 0, false, Mut.unknown, some (List.replicate 32 5),
        false⟩ 12 A2
        = ⟨none, none, 0, 0, false, Mut.unknown, some A2, false⟩ := by
      simp [applyExt, h32, List.take_of_length_le h32.le]
    have hloop : tlvLoop 90 (List.replicate 18 0
        ++ ([12, 0, 32, 0] ++ (List.replicate 32 5 ++ ([12, 0, 32, 0] ++ A2)))) 18
        ⟨none, none, 0, 0, false, Mut.unknown, none, false⟩ false
        = ⟨⟨none, none, 0, 0, false, Mut.unknown, some A2, false⟩, false, true, false, false⟩ := by
      rw [show (90 : Nat) = 89 + 1 from rfl]
      rw [tlvLoop_step (by omega) (by rw [hext1]; omega)]
      rw [hext1, htag1, hpay1, happ1]
      rw [show (89 : Nat) = 88 + 1 from rfl]
      rw [tlvLoop_step (by omega) (by rw [hext2]; omega)]
      rw [hext2, htag2, hpay2, happ2]
      rw [tlvLoop_stop (by omega)]
    unfold parse_token_2022_mint
    rw [if_neg (by omega), hhead]
    dsimp only []
    rw [hlen, hloop]
    rfl

theorem colIdx_lt_length {cols : List String} {c : String} {i : Nat}
    (h : colIdx cols c = some i) : i < cols.length := by
  induction cols generalizing i with
  | nil => simp [colIdx] at h
  | cons c' rest ih =>
    by_cases he : c' = c
    · simp [colIdx, he] at h
      simp only [List.length_cons]
      omega
    · simp only [colIdx, he, if_false, Option.map_eq_some'] at h
      obtain ⟨j, hj, rfl⟩ := h
      have := ih hj
      simp only [List.length_cons]
      omega

theorem colIdx_append_of_mem {cols : List String} {c : String} (k : List String)
    (h : c ∈ cols) : colIdx (cols ++ k) c = colIdx cols c := by
  induction cols with
  | nil => cases h
  | cons c' rest ih =>
    by_cases he : c' = c
    · simp [colIdx, he]
    · cases h with
      | head => exact absurd rfl he
      | tail _ hc => simp [colIdx, he, ih hc]

theorem getCellRow_extend {cols : List String} {r : List Cell} {c : String} (k : String)
    (fill : Cell) (hWF : r.length = cols.length) (hc : c ∈ cols) :
    getCellRow (cols ++ [k]) (r ++ [fill]) c = getCellRow cols r c := by
  unfold getCellRow
  rw [colIdx_append_of_mem [k] hc]
  cases hidx : colIdx cols c with
  | none => rfl
  | some i =>
    have hi : i < cols.length := colIdx_lt_length hidx
    dsimp only []
    rw [List.getElem?_append_left (by omega)]

theorem ensureCol_cols (df : Df) (k : String) (fill : Cell) :
    ∃ t, (ensureCol df k fill).cols = df.cols ++ t := by
  unfold ensureCol
  split
  · exact ⟨[], by simp⟩
  · exact ⟨[k], rfl⟩

theorem ensureCol_rows_length (df : Df) (k : String) (fill : Cell) :
    (ensureCol df k fill).rows.length = df.rows.length := by
  unfold ensureCol
  split
  · rfl
  · simp

theorem ensureCol_wf (df : Df) (k : String) (fill : Cell) (hWF : WfDf df) :
    WfDf (ensureCol df k fill) := by
  unfold ensureCol
  split
  · exact hWF
  · intro r hr
    simp only [List.mem_map] at hr
    obtain ⟨r0, hr0, rfl⟩ := hr
    simp [hWF r0 hr0]

theorem ensureCol_getCell (df : Df) (k : String) (fill : Cell) (hWF : WfDf df)
    (i : Nat) (c : String) (hc : c ∈ df.cols) :
    getCell (ensureCol df k fill) i c = getCell df i c := by
  unfold ensureCol
  split
  · rfl
  · unfold getCell
    dsimp only []
    rw [List.getElem?_map]
    cases hr : df.rows[i]? with
    | none => rfl
    | some r =>
      dsimp only [Option.map]
      exact getCellRow_extend k fill (hWF r (List.getElem?_mem hr)) hc

theorem setCol_cols (df : Df) (mask : List Bool) (k : String) (v : Cell) :
    (setCol df mask k v).cols = df.cols := by
  unfold setCol
  split <;> rfl

theorem setCol_rows_length (df : Df) (mask : List Bool) (k : String) (v : Cell)
    (hm : mask.length = df.rows.length) :
    (setCol df mask k v).rows.length = df.rows.length := by
  unfold setCol
  split
  · simp [hm]
  · rfl

theorem setCol_wf (df : Df) (mask : List Bool) (k : String) (v : Cell) (hWF : WfDf df) :
    WfDf (setCol df mask k v) := by
  unfold setCol
  split
  · intro r hr
    dsimp only [] at hr ⊢
    rw [List.mem_iff_getElem?] at hr
    obtain ⟨i, hi⟩ := hr
    rw [List.getElem?_zipWith'] at hi
    cases hmi : mask[i]? <;> rw [hmi] at hi
    · simp at hi
    · cases hri : df.rows[i]? <;> rw [hri] at hi
      · simp at hi
      · simp only [Option.map_some', Option.some_bind, Option.map_some,
          Option.some.injEq] at hi
        have hr0 := hWF _ (List.getElem?_mem hri)
        rw [← hi]
        split <;> simp [hr0]
  · exact hWF

theorem setCol_rows_getElem?_unmasked (df : Df) (mask : List Bool) (k : String) (v : Cell)
    (i : Nat) (hm : mask.getD i false = false) (hmlen : mask.length = df.rows.length) :
    (setCol df mask k v).rows[i]? = df.rows[i]? := by
  unfold setCol
  split
  · dsimp only []
    rw [List.getElem?_zipWith']
    cases hmi : mask[i]? with
    | none =>
      have hlen : df.rows.length ≤ i := by
        have := List.getElem?_eq_none_iff.1 hmi
        omega
      rw [List.getElem?_eq_none hlen]
      simp
    | some m =>
      have hmf : m = false := by
        have h2 := List.getD_eq_getElem?_getD mask i false
        rw [hmi, hm] at h2
        simpa using h2.symm
      subst hmf
      cases hri : df.rows[i]? with
      | none => simp
      | some r => simp
  · rfl

theorem unchOn_refl (mask : List Bool) (df : Df) (hWF : WfDf df) : UnchOn mask df df :=
  ⟨⟨[], by simp⟩, rfl, hWF, fun _ _ _ _ => rfl⟩

theorem unchOn_trans {mask : List Bool} {df1 df2 df3 : Df}
    (h12 : UnchOn mask df1 df2) (h23 : UnchOn mask df2 df3) : UnchOn mask df1 df3 := by
  obtain ⟨⟨t1, hc1⟩, hl1, hw1, hp1⟩ := h12
  obtain ⟨⟨t2, hc2⟩, hl2, hw2, hp2⟩ := h23
  refine ⟨⟨t1 ++ t2, by rw [hc2, hc1, List.append_assoc]⟩, by omega, hw2, ?_⟩
  intro i hi c hc
  rw [hp2 i hi c (by rw [hc1]; exact List.mem_append_left _ hc), hp1 i hi c hc]

theorem unchOn_ensureCol (df : Df) (mask : List Bool) (k : String) (fill : Cell)
    (hWF : WfDf df) : UnchOn mask df (ensureCol df k fill) :=
  ⟨ensureCol_cols df k fill, ensureCol_rows_length df k fill, ensureCol_wf df k fill hWF,
   fun i _ c hc => ensureCol_getCell df k fill hWF i c hc⟩

theorem unchOn_setCol (df : Df) (mask : List Bool) (k : String) (v : Cell)
    (hWF : WfDf df) (hmlen : mask.length = df.rows.length) :
    UnchOn mask df (setCol df mask k v) := by
  refine ⟨⟨[], by simp [setCol_cols]⟩, setCol_rows_length df mask k v hmlen,
    setCol_wf df mask k v hWF, ?_⟩
  intro i hi c hc
  unfold getCell
  rw [setCol_rows_getElem?_unmasked df mask k v i hi hmlen, setCol_cols]

theorem unchOn_writeCol (df : Df) (mask : List Bool) (k : String) (fill v : Cell)
    (hWF : WfDf df) (hmlen : mask.length = df.rows.length) :
    UnchOn mask df (writeCol df mask k fill v) := by
  unfold writeCol
  exact unchOn_trans (unchOn_ensureCol df mask k fill hWF)
    (unchOn_setCol (ensureCol df k fill) mask k v (ensureCol_wf df k fill hWF)
      (by rw [ensureCol_rows_length]; exact hmlen))

theorem unchOn_writeCol_chain {mask : List Bool} {df0 df : Df} (k : String) (fill v : Cell)
    (h : UnchOn mask df0 df) (hmlen : mask.length = df0.rows.length) :
    UnchOn mask df0 (writeCol df mask k fill v) :=
  unchOn_trans h (unchOn_writeCol df mask k fill v h.2.2.1 (by rw [h.2.1]; exact hmlen))

theorem unchOn_foldl (mask : List Bool) (info : Dict) :
    ∀ (df : Df), WfDf df → mask.length = df.rows.length →
    UnchOn mask df (info.foldl (fun d kv => writeCol d mask kv.1 (some "") kv.2) df) := by
  induction info with
  | nil =>
    intro df hWF _
    exact unchOn_refl mask df hWF
  | cons kv rest ih =>
    intro df hWF hm
    simp only [List.foldl_cons]
    have h1 := unchOn_writeCol df mask kv.1 (some "") kv.2 hWF hm
    have h2 := ih (writeCol df mask kv.1 (some "") kv.2) h1.2.2.1 (by rw [h1.2.1]; exact hm)
    exact unchOn_trans h1 h2

theorem unchOn_update (df : Df) (addr : String) (info : Dict) (pf : Bool) (now : String)
    (hWF : WfDf df) (hany : (maskOf df addr).any id = true) :
    UnchOn (maskOf df addr) df (update_from_rpc df addr info pf now).1 := by
  have hmlen : (maskOf df addr).length = df.rows.length := by simp [maskOf]
  unfold update_from_rpc
  dsimp only []
  rw [if_neg (by simp [hany] : ¬ ((!(maskOf df addr).any id) = true))]
  by_cases hinfo : List.isEmpty info = true
  · rw [if_pos hinfo]
    with_reducible apply unchOn_writeCol_chain _ _ _ _ hmlen
    with_reducible apply unchOn_writeCol_chain _ _ _ _ hmlen
    split
    · with_reducible apply unchOn_writeCol_chain _ _ _ _ hmlen
      with_reducible apply unchOn_writeCol_chain _ _ _ _ hmlen
      exact unchOn_foldl (maskOf df addr) info df hWF hmlen
    · with_reducible apply unchOn_writeCol_chain _ _ _ _ hmlen
      exact unchOn_foldl (maskOf df addr) info df hWF hmlen
  · rw [if_neg hinfo]
    with_reducible apply unchOn_writeCol_chain _ _ _ _ hmlen
    with_reducible apply unchOn_writeCol_chain _ _ _ _ hmlen
    with_reducible apply unchOn_writeCol_chain _ _ _ _ hmlen
    with_reducible apply unchOn_writeCol_chain _ _ _ _ hmlen
    with_reducible apply unchOn_writeCol_chain _ _ _ _ hmlen
    with_reducible apply unchOn_writeCol_chain _ _ _ _ hmlen
    split
    · with_reducible apply unchOn_writeCol_chain _ _ _ _ hmlen
      with_reducible apply unchOn_writeCol_chain _ _ _ _ hmlen
      exact unchOn_foldl (maskOf df addr) info df hWF hmlen
    · with_reducible apply unchOn_writeCol_chain _ _ _ _ hmlen
      exact unchOn_foldl (maskOf df addr) info df hWF hmlen

/-- C9: on every rectangular frame and every inspected address,
`update_from_rpc` keeps the number of rows, changes no existing column
value of any row whose `mint_address` does not match the address
case-insensitively, and when no row matches returns `None` leaving the
frame entirely unchanged. -/
theorem c9_update_frame_effect (df : Df) (addr : String) (info : Dict) (pf : Bool)
    (now : String) (hWF : WfDf df) :
    ((update_from_rpc df addr info pf now).1.rows.length = df.rows.length)
    ∧ (∀ i, (maskOf df addr).getD i false = false →
        ∀ c ∈ df.cols,
          getCell (update_from_rpc df addr info pf now).1 i c = getCell df i c)
    ∧ ((maskOf df addr).any id = false →
        update_from_rpc df addr info pf now = (df, none)) := by
  by_cases hany : (maskOf df addr).any id = true
  · have hU := unchOn_update df addr info pf now hWF hany
    refine ⟨hU.2.1, hU.2.2.2, ?_⟩
    intro hno
    rw [hany] at hno
    cases hno
  · have hf : (maskOf df addr).any id = false := by
      revert hany
      cases (maskOf df addr).any id <;> simp
    have hres : update_from_rpc df addr info pf now = (df, none) := by
      unfold update_from_rpc
      dsimp only []
      rw [if_pos (by simp [hf] : ((!(maskOf df addr).any id) = true))]
    exact ⟨by rw [hres], fun i _ c _ => by rw [hres], fun _ => hres⟩

/-- Witness for C9: a one-row frame whose address does not match is
returned unchanged with status `None`. -/
theorem c9_witness :
    update_from_rpc ⟨["mint_address"], [[none]]⟩ "xyz" [] false "T"
      = (⟨["mint_address"], [[none]]⟩, none) :=
  (c9_update_frame_effect ⟨["mint_address"], [[none]]⟩ "xyz" [] false "T"
    (by intro r hr; simp at hr; subst hr; rfl)).2.2 (by decide)

/-- Witness for C10: with first bytes 7 then 1 in two type-13 extensions
the recorded mutability is the last one (`"1"`), and with two type-12
extensions the recorded pointer is the last address. -/
theorem c10_witness :
    ((parse_token_2022_mint
        (List.replicate 18 0 ++ ([13, 0, 1, 0, 7] ++ [13, 0, 1, 0, 1]))).1.map
      (fun i => i.metadata_mutable)) = some Mut.yes
    ∧ ((parse_token_2022_mint (List.replicate 18 0
        ++ ([12, 0, 32, 0] ++ (List.replicate 32 5
          ++ ([12, 0, 32, 0] ++ List.replicate 32 9))))).1.map
      (fun i => i.metadata_account)) = some (some (List.replicate 32 9)) := by
  constructor
  · have h := c10_type13_first_byte_last_wins.2.1 7 1
    simpa using h
  · exact c10_type13_first_byte_last_wins.2.2 (List.replicate 32 9) (by decide)
